import Mathlib

/-!
# Verification of the capybara agent engine core

Shallow embedding of the conversation-memory window, todo store, tool
registry, permission gate, tool executor, streaming accumulator and
child-timeout failure analysis of the `capybara` coding-assistant engine,
with theorems settling the specification's claims about them.

Python dictionaries are modelled as insertion-ordered association lists,
sets as lists, the tokenizer and the regex engine as function parameters,
and floats that only pass through unchanged as naturals.
-/

namespace Capybara

/-! ## Messages (memory/window.py data model)

A message is a dict with keys `role`, `content`, `tool_calls`,
`tool_call_id`; an absent or `None` string field is modelled as `""`
(Python truthiness: both are falsy), an absent `tool_calls` as `[]`. -/

structure ToolCallFunction where
  name : String
  arguments : String
deriving DecidableEq, Repr

structure ToolCall where
  id : String
  function : ToolCallFunction
deriving DecidableEq, Repr

structure Msg where
  role : String
  content : String := ""
  tool_calls : List ToolCall := []
  tool_call_id : String := ""
deriving DecidableEq, Repr

/-- `ConversationMemory._count_tokens`: if `content` is truthy its token
count is returned at once; tool calls are counted only otherwise.
`tok` stands for the tiktoken encoder (`len(encoder.encode(s))`). -/
def countTokens (tok : String → Nat) (m : Msg) : Nat :=
  if m.content ≠ "" then tok m.content
  else (m.tool_calls.map (fun tc => tok tc.function.name + tok tc.function.arguments)).sum

def sumTokens (tok : String → Nat) (msgs : List Msg) : Nat :=
  (msgs.map (countTokens tok)).sum

/-- Length of the run of consecutive leading `role == "tool"` messages. -/
def leadingToolRun : List Msg → Nat
  | [] => 0
  | m :: rest => if m.role = "tool" then leadingToolRun rest + 1 else 0

/-- `ConversationMemory._find_removable_messages`. -/
def findRemovableMessages (msgs : List Msg) : Nat :=
  match msgs with
  | [] => 0
  | m :: rest =>
    if m.role = "assistant" ∧ m.tool_calls ≠ [] then 1 + leadingToolRun rest
    else if m.role = "tool" then leadingToolRun (m :: rest)
    else 1

/-- `ConversationMemory._remove_orphaned_tool_messages`: pop leading tool
messages while more than one message remains. -/
def removeOrphanedToolMessages : List Msg → List Msg
  | [] => []
  | m :: rest =>
    if m.role = "tool" ∧ rest ≠ [] then removeOrphanedToolMessages rest
    else m :: rest

structure MemoryConfig where
  max_messages : Option Nat := none
  max_tokens : Nat := 100000

/-- The `_trim` step that drops to the last `max_messages` messages
(`if self.config.max_messages and len > max_messages`; a `0` is falsy). -/
def trimByCount (max_messages : Option Nat) (msgs : List Msg) : List Msg :=
  match max_messages with
  | none => msgs
  | some k =>
    if k ≠ 0 ∧ k < msgs.length then msgs.drop (msgs.length - k) else msgs

/-- The `_trim` token loop: while over budget and more than one message
remains, drop the removable prefix; stop when the prefix would cover the
whole window (the code's two `break`s collapse to the guard
`1 ≤ r ∧ r < length`, since `_find_removable_messages` returns `0` only on
an empty window).  The loop is written with explicit fuel so that it
computes by reduction: every iteration removes at least one message, so
any fuel at least the window's length reaches the loop's exit
(`trimByTokens_stopped` below certifies the result is a genuine exit
state of the while loop). -/
def trimByTokensFuel (tok : String → Nat) (maxTokens sysTokens : Nat) :
    Nat → List Msg → List Msg
  | 0, msgs => msgs
  | fuel + 1, msgs =>
    if maxTokens < sysTokens + sumTokens tok msgs ∧ 1 < msgs.length then
      if 1 ≤ findRemovableMessages msgs ∧ findRemovableMessages msgs < msgs.length then
        trimByTokensFuel tok maxTokens sysTokens fuel
          (msgs.drop (findRemovableMessages msgs))
      else msgs
    else msgs

def trimByTokens (tok : String → Nat) (maxTokens sysTokens : Nat) (msgs : List Msg) :
    List Msg :=
  trimByTokensFuel tok maxTokens sysTokens msgs.length msgs

/-- `ConversationMemory._trim`: count cap, token loop, orphan sweep. -/
def trim (tok : String → Nat) (cfg : MemoryConfig) (sysTokens : Nat) (msgs : List Msg) :
    List Msg :=
  removeOrphanedToolMessages
    (trimByTokens tok cfg.max_tokens sysTokens (trimByCount cfg.max_messages msgs))

/-- `ConversationMemory` state: optional system prompt plus the window. -/
structure MemoryState where
  system_prompt : Option Msg := none
  messages : List Msg := []
deriving DecidableEq, Repr

def sysTokensOf (tok : String → Nat) : Option Msg → Nat
  | none => 0
  | some m => countTokens tok m

def getTokenCount (tok : String → Nat) (st : MemoryState) : Nat :=
  sysTokensOf tok st.system_prompt + sumTokens tok st.messages

/-- `ConversationMemory.set_system_prompt`. -/
def setSystemPrompt (st : MemoryState) (content : String) : MemoryState :=
  { st with system_prompt := some { role := "system", content := content } }

/-- `ConversationMemory.add`: a system message replaces the prompt (no
trim); anything else is appended and the trimmer runs. -/
def memAdd (tok : String → Nat) (cfg : MemoryConfig) (st : MemoryState) (m : Msg) :
    MemoryState :=
  if m.role = "system" then { st with system_prompt := some m }
  else
    { st with
      messages :=
        trim tok cfg (sysTokensOf tok st.system_prompt) (st.messages ++ [m]) }

def addBatchAux (st : MemoryState) : List Msg → MemoryState
  | [] => st
  | m :: rest =>
    if m.role = "system" then addBatchAux { st with system_prompt := some m } rest
    else addBatchAux { st with messages := st.messages ++ [m] } rest

/-- `ConversationMemory.add_batch`: append everything, trim once. -/
def memAddBatch (tok : String → Nat) (cfg : MemoryConfig) (st : MemoryState)
    (ms : List Msg) : MemoryState :=
  let st1 := addBatchAux st ms
  { st1 with
    messages := trim tok cfg (sysTokensOf tok st1.system_prompt) st1.messages }

/-- `ConversationMemory.clear`. -/
def memClear (st : MemoryState) : MemoryState :=
  { st with messages := [] }

inductive MemOp where
  | setSys (content : String)
  | add (m : Msg)
  | addBatch (ms : List Msg)
  | clear
deriving Repr

def applyMemOp (tok : String → Nat) (cfg : MemoryConfig) (st : MemoryState) :
    MemOp → MemoryState
  | .setSys c => setSystemPrompt st c
  | .add m => memAdd tok cfg st m
  | .addBatch ms => memAddBatch tok cfg st ms
  | .clear => memClear st

/-- The memory reached from a fresh `ConversationMemory` by a sequence of
operations. -/
def runMemOps (tok : String → Nat) (cfg : MemoryConfig) (ops : List MemOp) :
    MemoryState :=
  ops.foldl (applyMemOp tok cfg) {}

/-- The window shape at which the trimmer's safety stop refuses to shrink
further: one assistant message carrying tool calls followed only by its
tool results. -/
def isStuckWindow : List Msg → Bool
  | [] => false
  | m :: rest =>
    m.role == "assistant" && !m.tool_calls.isEmpty && rest.all (fun x => x.role == "tool")

/-- No orphaned tool message in front, unless it is the only message. -/
def noOrphanHead : List Msg → Bool
  | [] => true
  | [_] => true
  | m :: _ :: _ => m.role != "tool"

/-- The mutations that run the trimmer on the window (or empty it):
`add` of a non-system message, `add_batch`, `clear`.  `set_system_prompt`
and `add` of a system message replace the prompt without trimming. -/
def opRunsTrim : MemOp → Prop
  | .setSys _ => False
  | .add m => m.role ≠ "system"
  | .addBatch _ => True
  | .clear => True

/-! ## Todo store (tools/builtin/todo.py)

The tool's success replies are JSON dumps of a dict whose `message` field
is the interesting part; the embedding returns that `message` string for
successes and the full error strings verbatim.  Inputs are modelled
already validated by pydantic: an input that pydantic rejects makes the
tool return an error without mutating state, which the typed embedding
covers by construction. -/

inductive TodoStatus where
  | pending
  | in_progress
  | completed
  | cancelled
deriving DecidableEq, Repr

inductive TodoPriority where
  | low
  | medium
  | high
deriving DecidableEq, Repr

structure TodoItem where
  id : String
  content : String
  status : TodoStatus := .pending
  priority : TodoPriority := .medium
deriving DecidableEq, Repr

inductive TodoAction where
  | read
  | write (todos : Option (List TodoItem))
  | update (id : Option String) (status : Option TodoStatus) (content : Option String)
      (priority : Option TodoPriority)
  | complete (id : Option String)
  | delete
deriving Repr

/-- Result of one `todo(...)` call: the new store, the returned string and
whether `_notify_state_change` ran. -/
structure TodoOutcome where
  store : List TodoItem
  result : String
  notified : Bool
deriving Repr

def inProgressItems (l : List TodoItem) : List TodoItem :=
  l.filter (fun t => t.status = .in_progress)

/-- The `for i, t in enumerate(_TODOS): if t.id == id` search loop. -/
def findTodoIdx : List TodoItem → String → Option Nat
  | [], _ => none
  | t :: rest, id =>
    if t.id = id then some 0 else (findTodoIdx rest id).map (fun i => i + 1)

def writeErrorMsg (pendingCount : Nat) : String :=
  "Error: Cannot create new todo list while " ++ toString pendingCount ++
  " tasks are still pending. You must either:\n" ++
  "  1. Complete all current tasks, OR\n" ++
  "  2. Call todo(action='delete') to clear the current list first.\n" ++
  "Use todo(action='update', id='...', status='...') to modify existing todos."

def onlyOneInProgressMsg (ids : List String) (wouldBe : Bool) : String :=
  "Error: Only 1 task can be 'in_progress' at a time. Found " ++
  toString ids.length ++ (if wouldBe then " tasks would be in_progress: " else
  " tasks in_progress: ") ++ toString ids ++
  ". Complete the current task before starting another."

/-- The `todo` tool body (one action applied to the store `_TODOS`). -/
def todoStep (st : List TodoItem) : TodoAction → TodoOutcome
  | .read =>
    ⟨st, "Retrieved " ++ toString st.length ++ " todos", false⟩
  | .write todos =>
    if st ≠ [] ∧ ¬ (∀ t ∈ st, t.status = .completed) then
      ⟨st, writeErrorMsg (st.filter (fun t => t.status ≠ .completed)).length, false⟩
    else
      match todos with
      | none => ⟨st, "Error: 'todos' list is required for write action.", false⟩
      | some newList =>
        if ((newList.map (fun t => t.id)).dedup).length ≠ (newList.map (fun t => t.id)).length
        then ⟨st, "Error: Todo IDs must be unique.", false⟩
        else if 1 < (inProgressItems newList).length then
          ⟨st, onlyOneInProgressMsg ((inProgressItems newList).map (fun t => t.id)) false,
            false⟩
        else
          ⟨newList, "Created " ++ toString newList.length ++ " todos", true⟩
  | .update id status content priority =>
    if st = [] then
      ⟨st, "Error: No todos exist. Use todo(action='write', todos=[...]) to create a list first.",
        false⟩
    else
      match id with
      | none => ⟨st, "Error: 'id' parameter is required for update action.", false⟩
      | some theId =>
        match findTodoIdx st theId with
        | none =>
          ⟨st, "Error: Todo with id='" ++ theId ++ "' not found. Available IDs: " ++
            toString (st.map (fun t => t.id)), false⟩
        | some idx =>
          let old := st.getD idx { id := theId, content := "" }
          let updated : TodoItem :=
            { id := theId
              content := content.getD old.content
              status := status.getD old.status
              priority := priority.getD old.priority }
          let newList := st.set idx updated
          if 1 < (inProgressItems newList).length then
            ⟨st, onlyOneInProgressMsg ((inProgressItems newList).map (fun t => t.id)) true,
              false⟩
          else
            ⟨newList, "Updated todo '" ++ theId ++ "'", true⟩
  | .complete id =>
    if st = [] then
      ⟨st, "Error: No todos exist. Use todo(action='write', todos=[...]) to create a list first.",
        false⟩
    else
      match id with
      | none => ⟨st, "Error: 'id' parameter is required for complete action.", false⟩
      | some theId =>
        match findTodoIdx st theId with
        | none =>
          ⟨st, "Error: Todo with id='" ++ theId ++ "' not found. Available IDs: " ++
            toString (st.map (fun t => t.id)), false⟩
        | some idx =>
          let old := st.getD idx { id := theId, content := "" }
          let completed : TodoItem :=
            { id := old.id, content := old.content, status := .completed,
              priority := old.priority }
          let newList := st.set idx completed
          ⟨newList,
            "Completed todo '" ++ theId ++ "' (" ++
              toString (newList.filter (fun t => t.status = .completed)).length ++ "/" ++
              toString newList.length ++ " done)",
            true⟩
  | .delete =>
    if st = [] then ⟨st, "No todos to delete.", false⟩
    else ⟨[], "Deleted " ++ toString st.length ++ " todos. Todo list cleared.", true⟩

/-- Run a sequence of todo actions from the empty store, keeping the store,
the list of returned strings and the number of observer notifications. -/
def runTodoAux (st : List TodoItem) (results : List String) (notifications : Nat) :
    List TodoAction → List TodoItem × List String × Nat
  | [] => (st, results.reverse, notifications)
  | a :: rest =>
    let o := todoStep st a
    runTodoAux o.store (o.result :: results) (notifications + if o.notified then 1 else 0) rest

def runTodo (acts : List TodoAction) : List TodoItem × List String × Nat :=
  runTodoAux [] [] 0 acts

/-- Substring test used to state "the returned string contains ...". -/
def listStartsWith : List Char → List Char → Bool
  | _, [] => true
  | [], _ :: _ => false
  | a :: as, b :: bs => a == b && listStartsWith as bs

def listContainsSub (l pat : List Char) : Bool :=
  listStartsWith l pat ||
    match l with
    | [] => false
    | _ :: rest => listContainsSub rest pat

def strContainsSub (s pat : String) : Bool :=
  listContainsSub s.toList pat.toList

/-! ## Tool registry (tools/registry.py)

`_tools` and `_restrictions` are Python dicts: insertion-ordered maps
where assigning to an existing key replaces its value in place; `_schemas`
is a plain list that `tool()` always appends to.  The handler type is a
parameter `H` (handlers are opaque async callables). -/

inductive AgentMode where
  | parent
  | child
deriving DecidableEq, Repr

/-- A `_schemas` entry, keeping the fields the registry reads
(`schema["function"]["name"]`); description and parameters ride along. -/
structure ToolSchema where
  name : String
  description : String
  parameters : String
deriving DecidableEq, Repr

/-- Python dict assignment `d[k] = v`. -/
def dictInsert {H : Type} (k : String) (v : H) : List (String × H) → List (String × H)
  | [] => [(k, v)]
  | (k1, v1) :: rest =>
    if k1 = k then (k, v) :: rest else (k1, v1) :: dictInsert k v rest

structure ToolRegistry (H : Type) where
  tools : List (String × H) := []
  schemas : List ToolSchema := []
  restrictions : List (String × List AgentMode) := []

/-- `ToolRegistry.tool(...)`: store the handler under the name and append a
schema entry; record restrictions when `allowed_modes` is given. -/
def registerTool {H : Type} (r : ToolRegistry H) (name description parameters : String)
    (allowed_modes : List AgentMode) (f : H) : ToolRegistry H :=
  { tools := dictInsert name f r.tools
    schemas := r.schemas ++ [{ name := name, description := description,
                               parameters := parameters }]
    restrictions :=
      if allowed_modes ≠ [] then dictInsert name allowed_modes r.restrictions
      else r.restrictions }

/-- `ToolRegistry.unregister`. -/
def unregisterTool {H : Type} (r : ToolRegistry H) (name : String) : ToolRegistry H :=
  if (r.tools.map (fun p => p.1)).contains name then
    { r with
      tools := r.tools.filter (fun p => p.1 ≠ name)
      schemas := r.schemas.filter (fun s => s.name ≠ name) }
  else r

/-- `ToolRegistry.list_tools`. -/
def listTools {H : Type} (r : ToolRegistry H) : List String :=
  r.tools.map (fun p => p.1)

/-- `ToolRegistry.get_tool` (dict `.get`). -/
def getTool {H : Type} (r : ToolRegistry H) (name : String) : Option H :=
  (r.tools.find? (fun p => p.1 = name)).map (fun p => p.2)

/-! ## Permission gate and tool executor (core/execution/tool_executor.py)

Library calls are parameters: `regexSearch pattern text` stands for
`re.search`, `parseArgs raw` for `json.loads` followed by `str(args)` (the
canonical argument string; `none` models a `JSONDecodeError` whose text is
`parseErrorDetail raw`), `askUser name args` for the interactive
`_ask_user_permission` outcome, and `execResult name args` for
`registry.execute` (total: the registry turns handler exceptions into
`"Error: ..."` strings). -/

inductive ToolPermission where
  | always
  | ask
  | never
deriving DecidableEq, Repr

structure ToolSecurityConfig where
  permission : ToolPermission := .ask
  allowlist : List String := []
  denylist : List String := []
deriving DecidableEq, Repr

structure ExecEnv where
  security : String → Option ToolSecurityConfig
  regexSearch : String → String → Bool
  askUser : String → String → Bool
  parseArgs : String → Option String
  parseErrorDetail : String → String
  execResult : String → String → String

/-- `ToolExecutor._needs_user_permission`. -/
def needsUserPermission (env : ExecEnv) (approveAll : Bool) (name argsStr : String) :
    Bool :=
  match env.security name with
  | none => false
  | some cfg =>
    match cfg.permission with
    | .never => false
    | .always => false
    | .ask =>
      if cfg.allowlist.any (fun p => env.regexSearch p argsStr) then false
      else if cfg.denylist.any (fun p => env.regexSearch p argsStr) then false
      else if approveAll then false
      else true

/-- `ToolExecutor._check_permission`: for `ask`, the session `approve_all`
flag is consulted before the allowlist and the denylist. -/
def checkPermission (env : ExecEnv) (approveAll : Bool) (name argsStr : String) : Bool :=
  match env.security name with
  | none => true
  | some cfg =>
    match cfg.permission with
    | .never => false
    | .always => true
    | .ask =>
      if approveAll then true
      else if cfg.allowlist.any (fun p => env.regexSearch p argsStr) then true
      else if cfg.denylist.any (fun p => env.regexSearch p argsStr) then false
      else env.askUser name argsStr

/-- The partition test run before dispatch: a call whose raw arguments do
not parse is placed with the auto-approved ones (it will fail in
`execute_one`). -/
def needsPromptFor (env : ExecEnv) (approveAll : Bool) (tc : ToolCall) : Bool :=
  match env.parseArgs tc.function.arguments with
  | none => false
  | some argsStr => needsUserPermission env approveAll tc.function.name argsStr

/-- A tool-result message as built by `execute_one`. -/
structure ToolResultMsg where
  role : String
  tool_call_id : String
  content : String
deriving DecidableEq, Repr

/-- `execute_one`: parse, gate, dispatch; every path returns a message whose
`tool_call_id` is the call's id. -/
def executeOne (env : ExecEnv) (approveAll : Bool) (tc : ToolCall) : ToolResultMsg :=
  match env.parseArgs tc.function.arguments with
  | none =>
    { role := "tool", tool_call_id := tc.id,
      content := "Error: Invalid JSON arguments: " ++
        env.parseErrorDetail tc.function.arguments }
  | some argsStr =>
    if checkPermission env approveAll tc.function.name argsStr then
      { role := "tool", tool_call_id := tc.id,
        content := env.execResult tc.function.name argsStr }
    else
      { role := "tool", tool_call_id := tc.id,
        content := "Error: Tool execution denied by user or policy." }

/-- `ToolExecutor.execute_tools`: partition into needs-permission and
auto-approved (each keeping input order), run the first group sequentially
and the second concurrently, then concatenate the results
permission-required first. -/
def executeTools (env : ExecEnv) (approveAll : Bool) (tool_calls : List ToolCall) :
    List ToolResultMsg :=
  let needs := tool_calls.filter (fun tc => needsPromptFor env approveAll tc)
  let auto := tool_calls.filter (fun tc => !needsPromptFor env approveAll tc)
  needs.map (executeOne env approveAll) ++ auto.map (executeOne env approveAll)

/-! ## Streaming accumulator (core/execution/streaming.py)

A tool-call delta carries `index` plus optional `id`, `function.name` and
`function.arguments` fragments; the optional strings are modelled as `""`
when absent or falsy (an absent `function` object behaves as both fields
empty, since assigning an empty name and appending an empty fragment are
no-ops).  The accumulator `collected` is a Python dict keyed by index:
insertion-ordered, so `list(collected.values())` returns values in
first-appearance order of their indices. -/

structure ToolCallDelta where
  index : Nat
  id : String := ""
  name : String := ""
  arguments : String := ""
deriving DecidableEq, Repr

/-- A `collected[idx]` value. -/
structure AccToolCall where
  id : String
  name : String
  arguments : String
deriving DecidableEq, Repr

def applyDelta (acc : AccToolCall) (tc : ToolCallDelta) : AccToolCall :=
  { id := if tc.id ≠ "" then tc.id else acc.id
    name := if tc.name ≠ "" then tc.name else acc.name
    arguments := acc.arguments ++ tc.arguments }

/-- One iteration of `_collect_tool_calls`: ensure an entry for the index
exists (appending preserves dict insertion order), then update it. -/
def stepDelta (collected : List (Nat × AccToolCall)) (tc : ToolCallDelta) :
    List (Nat × AccToolCall) :=
  let base :=
    if (collected.map (fun p => p.1)).contains tc.index then collected
    else collected ++ [(tc.index, { id := tc.id, name := "", arguments := "" })]
  base.map (fun p => if p.1 = tc.index then (p.1, applyDelta p.2 tc) else p)

/-- `_collect_tool_calls` folded over the whole stream of deltas in arrival
order. -/
def collectToolCalls (deltas : List ToolCallDelta) (collected : List (Nat × AccToolCall)) :
    List (Nat × AccToolCall) :=
  deltas.foldl stepDelta collected

/-- The finalized assistant message (`_build_message`). -/
structure AssistantMessage where
  role : String
  content : Option String
  tool_calls : Option (List AccToolCall)
deriving DecidableEq, Repr

def buildMessage (content : List String) (toolCalls : List (Nat × AccToolCall)) :
    AssistantMessage :=
  { role := "assistant"
    content := if content ≠ [] then some (String.join content) else none
    tool_calls := if toolCalls ≠ [] then some (toolCalls.map (fun p => p.2)) else none }

/-- The whole driver on a stream of deltas (content deltas do not interact
with tool-call accumulation): the message the agent receives. -/
def streamedMessage (content : List String) (deltas : List ToolCallDelta) :
    AssistantMessage :=
  buildMessage content (collectToolCalls deltas [])

/-! ## Child timeout analysis (tools/builtin/delegation/failure_analysis.py)

`ExecutionLog` sets are modelled as lists; durations and the timeout are
naturals (the timeout only passes through `int(timeout * 2)`, which on an
integral number of seconds is exact doubling). -/

structure ToolExecution where
  tool_name : String
  args : String
  result_summary : String
  success : Bool
  duration : Nat
  timestamp : String
deriving DecidableEq, Repr

structure ExecutionLog where
  files_read : List String := []
  files_written : List String := []
  files_edited : List String := []
  tool_executions : List ToolExecution := []
  errors : List (String × String) := []
deriving Repr

/-- `ExecutionLog.files_modified = files_written | files_edited`. -/
def filesModified (log : ExecutionLog) : List String :=
  (log.files_written ++ log.files_edited).dedup

/-- `ExecutionLog.tool_usage_summary`: per-tool counts. -/
def toolUsageSummary (log : ExecutionLog) : List (String × Nat) :=
  ((log.tool_executions.map (fun te => te.tool_name)).dedup).map
    (fun n => (n, (log.tool_executions.filter (fun te => te.tool_name = n)).length))

inductive FailureCategory where
  | timeout
  | missing_context
  | tool_error
  | invalid_task
  | partial_success
deriving DecidableEq, Repr

structure ChildFailure where
  category : FailureCategory
  message : String
  session_id : String
  duration : Nat
  completed_steps : List String
  files_modified : List String
  blocked_on : Option String
  suggested_retry : Bool
  suggested_actions : List String
  tool_usage : List (String × Nat)
  last_successful_tool : Option String
deriving Repr

/-- `analyze_timeout_failure` (the child agent's `execution_log` may be
`None`, hence the `Option`). -/
def analyzeTimeoutFailure (execLog : Option ExecutionLog) (session_id : String)
    (duration timeout : Nat) : ChildFailure :=
  let completed_steps :=
    match execLog with
    | none => []
    | some log =>
      if log.tool_executions ≠ [] then
        let successfulWrites :=
          log.tool_executions.filter (fun te => te.tool_name = "write_file" ∧ te.success)
        let successfulEdits :=
          log.tool_executions.filter (fun te => te.tool_name = "edit_file" ∧ te.success)
        (if successfulWrites ≠ [] then
          ["Created " ++ toString successfulWrites.length ++ " files"] else []) ++
        (if successfulEdits ≠ [] then
          ["Modified " ++ toString successfulEdits.length ++ " files"] else [])
      else []
  let tool_count := match execLog with
    | some log => log.tool_executions.length
    | none => 0
  let needs_more_time := 0 < tool_count
  let suggested_actions :=
    (if needs_more_time then ["Retry with timeout=" ++ toString (timeout * 2) ++ "s"]
     else []) ++ ["Break task into smaller subtasks"]
  { category := .timeout
    message := "Sub-agent timed out after " ++ toString timeout ++ "s"
    session_id := session_id
    duration := duration
    completed_steps := completed_steps
    files_modified := match execLog with
      | some log => filesModified log
      | none => []
    blocked_on := some "Time limit insufficient"
    suggested_retry := decide needs_more_time
    suggested_actions := suggested_actions
    tool_usage := match execLog with
      | some log => toolUsageSummary log
      | none => []
    last_successful_tool := match execLog with
      | some log => (log.tool_executions.getLast?).map (fun te => te.tool_name)
      | none => none }

/-! ## Loop-exit predicate and concrete fixtures -/

/-- An exit state of the `_trim` token loop: under budget, or a window of
at most one message, or a removable prefix spanning the whole window. -/
def tokenLoopStopped (tok : String → Nat) (maxTokens sysTokens : Nat)
    (msgs : List Msg) : Prop :=
  sysTokens + sumTokens tok msgs ≤ maxTokens ∨ msgs.length ≤ 1 ∨
    msgs.length ≤ findRemovableMessages msgs

/-- Fixture: budget of one token, no message cap. -/
def cfgA : MemoryConfig := { max_messages := none, max_tokens := 1 }

def asstA : Msg :=
  { role := "assistant", content := "", tool_calls := [⟨"c", ⟨"f", "aaaa"⟩⟩] }

def toolA : Msg := { role := "tool", content := "bbbb", tool_call_id := "c" }

/-- Fixture: budget of ten tokens, then an oversized system prompt. -/
def cfgB : MemoryConfig := { max_messages := none, max_tokens := 10 }

def opsB : List MemOp :=
  [.add { role := "user", content := "aa" }, .add { role := "user", content := "bb" },
   .setSys "ssssssssss"]

/-- Fixture: the S4 scenario's two `todo(write, ...)` calls. -/
def todoListC7 : List TodoItem :=
  [{ id := "1", content := "a", status := .in_progress }, { id := "2", content := "b" }]

def todoActsC7 : List TodoAction :=
  [.write (some todoListC7), .write (some [{ id := "3", content := "c" }])]

/-- Fixture: an execution log holding one unsuccessful tool invocation. -/
def logC4 : ExecutionLog :=
  { tool_executions := [⟨"write_file", "a", "r", false, 0, "t"⟩] }

/-- Fixture: an execution log holding one successful tool invocation. -/
def logC4w : ExecutionLog :=
  { tool_executions := [⟨"write_file", "a", "r", true, 0, "t"⟩] }

/-- Fixture: `t1` has no security config (auto-approved), `t2` is `ask`
with empty lists (needs a prompt), `t3` is `ask` with a denylist. -/
def envC1 : ExecEnv :=
  { security := fun n =>
      if n = "t2" then some { permission := .ask }
      else if n = "t3" then some { permission := .ask, denylist := ["d"] }
      else none
    regexSearch := fun p s => p = s
    askUser := fun _ _ => false
    parseArgs := fun s => some s
    parseErrorDetail := fun _ => "detail"
    execResult := fun _ _ => "ok" }

def callsC1 : List ToolCall := [⟨"c1", ⟨"t1", "{}"⟩⟩, ⟨"c2", ⟨"t2", "{}"⟩⟩]

def cfgC3 : ToolSecurityConfig := { permission := .ask, denylist := ["d"] }

/-- Fixture: message with both text content and a tool call. -/
def msgC5 : Msg :=
  { role := "assistant", content := "hi", tool_calls := [⟨"c", ⟨"f", "xy"⟩⟩] }

/-- Fixture: deltas whose higher index arrives first. -/
def deltasC8 : List ToolCallDelta :=
  [{ index := 1, id := "b", name := "g", arguments := "x" },
   { index := 0, id := "a", name := "f", arguments := "y" }]

/-- Fixture: deltas in the usual non-decreasing index order. -/
def deltasC8w : List ToolCallDelta :=
  [{ index := 0, id := "a", name := "f", arguments := "x" },
   { index := 0, arguments := "y" },
   { index := 1, id := "b", name := "g", arguments := "z" }]

/-! ## Helper lemmas -/

set_option maxRecDepth 100000

theorem dictInsert_of_not_mem {H : Type} (k : String) (v : H) (l : List (String × H))
    (h : ∀ p ∈ l, p.1 ≠ k) : dictInsert k v l = l ++ [(k, v)] := by
  induction l with
  | nil => rfl
  | cons p rest ih =>
    obtain ⟨k1, v1⟩ := p
    have h1 : k1 ≠ k := h (k1, v1) (List.mem_cons_self _ _)
    simp only [dictInsert, if_neg h1, List.cons_append, List.cons.injEq, true_and]
    exact ih (fun q hq => h q (List.mem_cons_of_mem _ hq))

theorem dictInsert_append_same {H : Type} (k : String) (g f : H) (l : List (String × H))
    (h : ∀ p ∈ l, p.1 ≠ k) : dictInsert k g (l ++ [(k, f)]) = l ++ [(k, g)] := by
  induction l with
  | nil => simp [dictInsert]
  | cons p rest ih =>
    obtain ⟨k1, v1⟩ := p
    have h1 : k1 ≠ k := h (k1, v1) (List.mem_cons_self _ _)
    simp only [List.cons_append, dictInsert, if_neg h1, List.cons.injEq, true_and]
    exact ih (fun q hq => h q (List.mem_cons_of_mem _ hq))

theorem executeOne_tool_call_id (env : ExecEnv) (a : Bool) (tc : ToolCall) :
    (executeOne env a tc).tool_call_id = tc.id := by
  unfold executeOne
  cases env.parseArgs tc.function.arguments with
  | none => rfl
  | some s => by_cases h : checkPermission env a tc.function.name s <;> simp [h]

theorem filter_length_split {α : Type} (p : α → Bool) (l : List α) :
    (l.filter p).length + (l.filter (fun x => !p x)).length = l.length := by
  induction l with
  | nil => rfl
  | cons x rest ih => by_cases h : p x <;> simp [List.filter_cons, h, ← ih] <;> omega

theorem keys_map_update (l : List (Nat × AccToolCall)) (tc : ToolCallDelta) :
    ((l.map (fun p => if p.1 = tc.index then (p.1, applyDelta p.2 tc) else p)).map
      (fun p => p.1)) = l.map (fun p => p.1) := by
  rw [List.map_map]
  apply List.map_congr_left
  intro p _
  by_cases h : p.1 = tc.index <;> simp [h]

theorem stepDelta_keys (collected : List (Nat × AccToolCall)) (tc : ToolCallDelta) :
    (stepDelta collected tc).map (fun p => p.1) =
      if (collected.map (fun p => p.1)).contains tc.index
      then collected.map (fun p => p.1)
      else collected.map (fun p => p.1) ++ [tc.index] := by
  unfold stepDelta
  by_cases h : (collected.map (fun p => p.1)).contains tc.index = true
  · rw [if_pos h, if_pos h, keys_map_update]
  · rw [if_neg h, if_neg h, keys_map_update]
    simp

/-- Folding the accumulator over a stream whose indices arrive in
non-decreasing order keeps the dict's insertion-ordered keys strictly
increasing. -/
theorem collect_keys_sorted (deltas : List ToolCallDelta) :
    ∀ acc : List (Nat × AccToolCall),
      List.Sorted (· < ·) (acc.map (fun p => p.1)) →
      (∀ k ∈ acc.map (fun p => p.1), ∀ d ∈ deltas, k ≤ d.index) →
      List.Sorted (· ≤ ·) (deltas.map (fun d => d.index)) →
      List.Sorted (· < ·) ((collectToolCalls deltas acc).map (fun p => p.1)) := by
  induction deltas with
  | nil =>
    intro acc h1 _ _
    simpa [collectToolCalls] using h1
  | cons d rest ih =>
    intro acc h1 h2 h3
    have hstep : collectToolCalls (d :: rest) acc =
        collectToolCalls rest (stepDelta acc d) := by
      simp [collectToolCalls]
    rw [hstep]
    rw [List.map_cons, List.sorted_cons] at h3
    apply ih (stepDelta acc d)
    · rw [stepDelta_keys]
      by_cases hc : (acc.map (fun p => p.1)).contains d.index = true
      · rw [if_pos hc]
        exact h1
      · rw [if_neg hc]
        apply List.pairwise_append.2
        refine ⟨h1, List.pairwise_singleton _ _, ?_⟩
        intro k hk j hj
        rw [List.mem_singleton] at hj
        subst hj
        have hle : k ≤ d.index := h2 k hk d (List.mem_cons_self _ _)
        have hne : k ≠ d.index := by
          intro heq
          rw [heq] at hk
          exact hc (List.elem_eq_true_of_mem hk)
        omega
    · intro k hk d2 hd2
      rw [stepDelta_keys] at hk
      by_cases hc : (acc.map (fun p => p.1)).contains d.index = true
      · rw [if_pos hc] at hk
        exact h2 k hk d2 (List.mem_cons_of_mem _ hd2)
      · rw [if_neg hc, List.mem_append] at hk
        rcases hk with hk | hk
        · exact h2 k hk d2 (List.mem_cons_of_mem _ hd2)
        · rw [List.mem_singleton] at hk
          subst hk
          exact h3.1 d2.index (List.mem_map_of_mem _ hd2)
    · exact h3.2

theorem nodup_of_dedup_length {α : Type} [DecidableEq α] (l : List α)
    (h : l.dedup.length = l.length) : l.Nodup := by
  have hs : List.Sublist l.dedup l := List.dedup_sublist l
  have he : l.dedup = l := List.Sublist.eq_of_length hs h
  rw [← he]
  exact List.nodup_dedup l

theorem findTodoIdx_spec (theId : String) :
    ∀ (st : List TodoItem) (idx : Nat) (d : TodoItem),
      findTodoIdx st theId = some idx →
      idx < st.length ∧ (st.getD idx d).id = theId := by
  intro st
  induction st with
  | nil => intro idx d h; simp [findTodoIdx] at h
  | cons t rest ih =>
    intro idx d h
    rw [findTodoIdx] at h
    by_cases ht : t.id = theId
    · rw [if_pos ht] at h
      obtain rfl : idx = 0 := by simpa using h.symm
      simpa [List.getD] using ht
    · rw [if_neg ht] at h
      obtain ⟨j, hj, rfl⟩ := Option.map_eq_some'.1 h
      obtain ⟨h1, h2⟩ := ih j d hj
      constructor
      · simpa using h1
      · simpa [List.getD] using h2

theorem list_set_self {α : Type} :
    ∀ (l : List α) (i : Nat) (x : α), l.getD i x = x → i < l.length → l.set i x = l := by
  intro l
  induction l with
  | nil => intro i x _ h2; simp at h2
  | cons a rest ih =>
    intro i x h1 h2
    cases i with
    | zero => simp [List.getD] at h1; simp [h1]
    | succ n =>
      simp [List.getD] at h1
      simp only [List.set]
      rw [ih n x (by simpa [List.getD] using h1) (by simpa using h2)]

theorem inProgress_set_le (x : TodoItem) (hx : x.status ≠ .in_progress) :
    ∀ (st : List TodoItem) (idx : Nat),
      (inProgressItems (st.set idx x)).length ≤ (inProgressItems st).length := by
  intro st
  induction st with
  | nil => intro idx; simp
  | cons t rest ih =>
    intro idx
    cases idx with
    | zero =>
      simp only [List.set, inProgressItems, List.filter_cons]
      by_cases ht : t.status = TodoStatus.in_progress <;>
        by_cases hxx : decide (x.status = TodoStatus.in_progress) = true <;>
        simp_all <;> omega
    | succ n =>
      simp only [List.set, inProgressItems, List.filter_cons]
      have := ih n
      by_cases ht : t.status = TodoStatus.in_progress <;>
        simp_all [inProgressItems] <;> omega

theorem map_getD {α β : Type} (f : α → β) :
    ∀ (l : List α) (idx : Nat) (d : α) (y : β), idx < l.length →
      (l.map f).getD idx y = f (l.getD idx d) := by
  intro l
  induction l with
  | nil => intro idx d y h; simp at h
  | cons a rest ih =>
    intro idx d y h
    cases idx with
    | zero => simp [List.getD]
    | succ n =>
      simp only [List.map_cons, List.getD_cons_succ]
      exact ih n d y (by simpa using h)

theorem sumTokens_cons (tok : String → Nat) (m : Msg) (l : List Msg) :
    sumTokens tok (m :: l) = countTokens tok m + sumTokens tok l := by
  simp [sumTokens]

theorem findRemovableMessages_pos (msgs : List Msg) (h : msgs ≠ []) :
    1 ≤ findRemovableMessages msgs := by
  match msgs with
  | m :: rest =>
    rw [findRemovableMessages]
    split
    · omega
    · split
      · next hna ht =>
        rw [leadingToolRun, if_pos ht]
        omega
      · omega

theorem leadingToolRun_le_length (l : List Msg) : leadingToolRun l ≤ l.length := by
  induction l with
  | nil => simp [leadingToolRun]
  | cons m rest ih =>
    rw [leadingToolRun]
    split <;> simp <;> omega

theorem leadingToolRun_eq_length (l : List Msg) (h : l.length ≤ leadingToolRun l) :
    ∀ x ∈ l, x.role = "tool" := by
  induction l with
  | nil => simp
  | cons m rest ih =>
    rw [leadingToolRun] at h
    split at h
    · next hm =>
      intro x hx
      rcases List.mem_cons.1 hx with rfl | hx2
      · exact hm
      · exact ih (by simpa using h) x hx2
    · simp at h

theorem leadingToolRun_of_all_tool (l : List Msg) (h : ∀ x ∈ l, x.role = "tool") :
    leadingToolRun l = l.length := by
  induction l with
  | nil => rfl
  | cons m rest ih =>
    rw [leadingToolRun, if_pos (h m (List.mem_cons_self _ _))]
    simp [ih (fun x hx => h x (List.mem_cons_of_mem _ hx))]

theorem trimFuel_length_le (tok : String → Nat) (maxT sysT : Nat) :
    ∀ (fuel : Nat) (msgs : List Msg),
      (trimByTokensFuel tok maxT sysT fuel msgs).length ≤ msgs.length := by
  intro fuel
  induction fuel with
  | zero => intro msgs; simp [trimByTokensFuel]
  | succ n ih =>
    intro msgs
    rw [trimByTokensFuel]
    split
    · split
      · calc (trimByTokensFuel tok maxT sysT n
            (msgs.drop (findRemovableMessages msgs))).length
            ≤ (msgs.drop (findRemovableMessages msgs)).length := ih _
          _ ≤ msgs.length := by simp
      · exact le_refl _
    · exact le_refl _

theorem removeOrphans_length_le (l : List Msg) :
    (removeOrphanedToolMessages l).length ≤ l.length := by
  induction l with
  | nil => simp [removeOrphanedToolMessages]
  | cons m rest ih =>
    rw [removeOrphanedToolMessages]
    split
    · calc (removeOrphanedToolMessages rest).length ≤ rest.length := ih
        _ ≤ (m :: rest).length := by simp
    · exact le_refl _

theorem removeOrphans_noOrphanHead (l : List Msg) :
    noOrphanHead (removeOrphanedToolMessages l) = true := by
  induction l with
  | nil => rfl
  | cons m rest ih =>
    rw [removeOrphanedToolMessages]
    split
    · exact ih
    · next hcond =>
      match m, rest with
      | m, [] => rfl
      | m, r :: rs =>
        rw [noOrphanHead]
        push_neg at hcond
        have : m.role ≠ "tool" := by
          intro hm
          exact absurd (hcond hm) (by simp)
        simpa using this

theorem removeOrphans_eq_self (l : List Msg) (h : noOrphanHead l = true) :
    removeOrphanedToolMessages l = l := by
  match l with
  | [] => rfl
  | [m] =>
    rw [removeOrphanedToolMessages]
    simp
  | m :: r :: rs =>
    rw [removeOrphanedToolMessages, if_neg]
    rw [noOrphanHead] at h
    simp at h
    simp [h]

theorem trimByCount_le_k (k : Nat) (hk : k ≠ 0) (msgs : List Msg) :
    (trimByCount (some k) msgs).length ≤ k := by
  rw [trimByCount]
  by_cases h : k < msgs.length
  · rw [if_pos ⟨hk, h⟩]
    simp
    omega
  · rw [if_neg (by tauto)]
    omega

/-- Whatever the fuel, the loop either exhausts the guard or hits the
safety stop: with fuel at least the window length the result is an exit
state of the while loop. -/
theorem trimFuel_stopped (tok : String → Nat) (maxT sysT : Nat) :
    ∀ (fuel : Nat) (msgs : List Msg), msgs.length ≤ fuel →
      tokenLoopStopped tok maxT sysT (trimByTokensFuel tok maxT sysT fuel msgs) := by
  intro fuel
  induction fuel with
  | zero =>
    intro msgs h
    have : msgs = [] := List.length_eq_zero.1 (by omega)
    subst this
    right; left
    simp [trimByTokensFuel]
  | succ n ih =>
    intro msgs h
    rw [trimByTokensFuel]
    by_cases hg : maxT < sysT + sumTokens tok msgs ∧ 1 < msgs.length
    · rw [if_pos hg]
      by_cases hr : 1 ≤ findRemovableMessages msgs ∧
          findRemovableMessages msgs < msgs.length
      · rw [if_pos hr]
        apply ih
        rw [List.length_drop]
        omega
      · rw [if_neg hr]
        right; right
        have hne : msgs ≠ [] := by
          intro he
          rw [he] at hg
          simp at hg
        have h1 := findRemovableMessages_pos msgs hne
        omega
    · rw [if_neg hg]
      rw [Classical.not_and_iff_or_not_not] at hg
      rcases hg with hg | hg
      · left
        omega
      · right; left
        omega

/-- An exit state of the token loop is a fixed point of the loop. -/
theorem trimFuel_eq_self (tok : String → Nat) (maxT sysT : Nat) (msgs : List Msg)
    (h : tokenLoopStopped tok maxT sysT msgs) :
    ∀ fuel : Nat, trimByTokensFuel tok maxT sysT fuel msgs = msgs := by
  intro fuel
  cases fuel with
  | zero => rfl
  | succ n =>
    rw [trimByTokensFuel]
    rcases h with h | h | h
    · rw [if_neg (by omega)]
    · rw [if_neg (by omega)]
    · by_cases hg : maxT < sysT + sumTokens tok msgs ∧ 1 < msgs.length
      · rw [if_pos hg, if_neg (by omega)]
      · rw [if_neg hg]

/-- The orphan sweep preserves the token loop's exit condition. -/
theorem stopped_removeOrphans (tok : String → Nat) (maxT sysT : Nat) :
    ∀ l : List Msg, tokenLoopStopped tok maxT sysT l →
      tokenLoopStopped tok maxT sysT (removeOrphanedToolMessages l) := by
  intro l
  induction l with
  | nil => intro h; exact h
  | cons m rest ih =>
    intro h
    rw [removeOrphanedToolMessages]
    split
    · next hcond =>
      apply ih
      rcases h with h | h | h
      · left
        have := sumTokens_cons tok m rest
        omega
      · exfalso
        have hlen : rest.length + 1 ≤ 1 := by simpa using h
        exact hcond.2 (List.length_eq_zero.1 (by omega))
      · right; right
        rw [findRemovableMessages,
            if_neg (by
              intro hass
              rw [hcond.1] at hass
              simp at hass),
            if_pos hcond.1, leadingToolRun, if_pos hcond.1, List.length_cons] at h
        have hrest : rest.length ≤ leadingToolRun rest := by omega
        have hall : ∀ x ∈ rest, x.role = "tool" := leadingToolRun_eq_length rest hrest
        match rest, hcond.2 with
        | r :: rs, _ =>
          have hr : r.role = "tool" := hall r (List.mem_cons_self _ _)
          rw [findRemovableMessages,
              if_neg (by
                intro hass
                rw [hr] at hass
                simp at hass),
              if_pos hr, leadingToolRun_of_all_tool _ hall]
    · exact h

/-- An exit state with no orphaned head is under budget, down to one
message, or the stuck assistant-plus-tools window. -/
theorem stopped_to_invariant (tok : String → Nat) (maxT sysT : Nat) (l : List Msg)
    (h1 : tokenLoopStopped tok maxT sysT l) (h2 : noOrphanHead l = true) :
    sysT + sumTokens tok l ≤ maxT ∨ l.length ≤ 1 ∨ isStuckWindow l = true := by
  rcases h1 with h | h | h
  · exact Or.inl h
  · exact Or.inr (Or.inl h)
  · match l, h2 with
    | [], _ => right; left; simp
    | [m], _ => right; left; simp
    | m :: r :: rs, h2 =>
      right; right
      rw [noOrphanHead] at h2
      have hm : m.role ≠ "tool" := by simpa using h2
      rw [findRemovableMessages] at h
      split at h
      · next hass =>
        rw [List.length_cons] at h
        have hall : ∀ x ∈ r :: rs, x.role = "tool" :=
          leadingToolRun_eq_length (r :: rs) (by omega)
        rw [isStuckWindow]
        have hb1 : m.role == "assistant" := by simp [hass.1]
        have hb3 : !(List.isEmpty m.tool_calls) := by
          rcases hm2 : m.tool_calls with _ | _
          · exact absurd hm2 hass.2
          · simp [List.isEmpty]
        simp only [hb1, hb3, Bool.and_true, Bool.true_and]
        rw [List.all_eq_true]
        intro x hx
        simp [hall x hx]
      · exfalso
        rw [List.length_cons, List.length_cons] at h
        omega

/-- Every window produced by `_trim` is under budget, has at most one
message, or is the stuck assistant-plus-tools shape, and never starts
with an orphaned tool message. -/
theorem trim_window_invariant (tok : String → Nat) (cfg : MemoryConfig) (sysT : Nat)
    (msgs : List Msg) :
    (sysT + sumTokens tok (trim tok cfg sysT msgs) ≤ cfg.max_tokens ∨
      (trim tok cfg sysT msgs).length ≤ 1 ∨
      isStuckWindow (trim tok cfg sysT msgs) = true) ∧
    noOrphanHead (trim tok cfg sysT msgs) = true := by
  have hstopped : tokenLoopStopped tok cfg.max_tokens sysT (trim tok cfg sysT msgs) := by
    rw [trim]
    apply stopped_removeOrphans
    apply trimFuel_stopped
    exact le_refl _
  have hclean : noOrphanHead (trim tok cfg sysT msgs) = true := by
    rw [trim]
    exact removeOrphans_noOrphanHead _
  exact ⟨stopped_to_invariant tok cfg.max_tokens sysT _ hstopped hclean, hclean⟩

/-- Each `todo` action keeps at most one in-progress item and pairwise
distinct ids. -/
theorem todoStep_inv (st : List TodoItem) (a : TodoAction)
    (h : (inProgressItems st).length ≤ 1 ∧ (st.map (fun t => t.id)).Nodup) :
    (inProgressItems (todoStep st a).store).length ≤ 1 ∧
    ((todoStep st a).store.map (fun t => t.id)).Nodup := by
  cases a with
  | read => exact h
  | delete =>
    simp only [todoStep]
    split
    · exact h
    · simp [inProgressItems]
  | write todos =>
    simp only [todoStep]
    split
    · exact h
    · split
      · exact h
      · next newList =>
        split
        · exact h
        · split
          · exact h
          · next hdedup hcnt =>
            dsimp only
            refine ⟨by omega, ?_⟩
            exact nodup_of_dedup_length _ (by omega)
  | update id status content priority =>
    simp only [todoStep]
    split
    · exact h
    · split
      · exact h
      · next theId =>
        split
        · exact h
        · next idx heq =>
          split
          · exact h
          · next hcnt =>
            dsimp only
            refine ⟨by omega, ?_⟩
            have hspec := findTodoIdx_spec theId st idx { id := theId, content := "" } heq
            have hmap : (st.set idx
                { id := theId,
                  content := content.getD (st.getD idx { id := theId, content := "" }).content,
                  status := status.getD (st.getD idx { id := theId, content := "" }).status,
                  priority := priority.getD (st.getD idx { id := theId, content := "" }).priority
                }).map (fun t => t.id) = st.map (fun t => t.id) := by
              rw [List.map_set]
              apply list_set_self
              · rw [map_getD (fun t => t.id) st idx { id := theId, content := "" } _ hspec.1]
                exact hspec.2.symm ▸ rfl
              · simpa using hspec.1
            rw [hmap]
            exact h.2
  | complete id =>
    simp only [todoStep]
    split
    · exact h
    · split
      · exact h
      · next theId =>
        split
        · exact h
        · next idx heq =>
          have hspec := findTodoIdx_spec theId st idx { id := theId, content := "" } heq
          dsimp only
          constructor
          · calc (inProgressItems ((st.set idx
                { id := (st.getD idx { id := theId, content := "" }).id,
                  content := (st.getD idx { id := theId, content := "" }).content,
                  status := .completed,
                  priority := (st.getD idx { id := theId, content := "" }).priority }))).length
                ≤ (inProgressItems st).length := inProgress_set_le _ (by simp) st idx
              _ ≤ 1 := h.1
          · have hmap : (st.set idx
                { id := (st.getD idx { id := theId, content := "" }).id,
                  content := (st.getD idx { id := theId, content := "" }).content,
                  status := .completed,
                  priority := (st.getD idx { id := theId, content := "" }).priority
                }).map (fun t => t.id) = st.map (fun t => t.id) := by
              rw [List.map_set]
              apply list_set_self
              · rw [map_getD (fun t => t.id) st idx { id := theId, content := "" } _ hspec.1]
              · simpa using hspec.1
            rw [hmap]
            exact h.2

theorem runTodoAux_inv (acts : List TodoAction) :
    ∀ (st : List TodoItem) (res : List String) (n : Nat),
      (inProgressItems st).length ≤ 1 ∧ (st.map (fun t => t.id)).Nodup →
      (inProgressItems (runTodoAux st res n acts).1).length ≤ 1 ∧
      ((runTodoAux st res n acts).1.map (fun t => t.id)).Nodup := by
  induction acts with
  | nil => intro st res n h; simpa [runTodoAux] using h
  | cons a rest ih =>
    intro st res n h
    rw [runTodoAux]
    exact ih _ _ _ (todoStep_inv st a h)

/-! ## Claim theorems -/

/-- Claim C1, as stated, is false: the executor returns the needs-prompt
results before the auto-resolved ones, so for the input `[c1 auto,
c2 needs-prompt]` the output has the right length but its first element's
`tool_call_id` is `c2.id`, not `c1.id`. -/
theorem C1_executor_reorder_cex :
    (executeTools envC1 false callsC1).length = callsC1.length ∧
    ((executeTools envC1 false callsC1).getD 0
        { role := "", tool_call_id := "", content := "" }).tool_call_id = "c2" ∧
    (callsC1.getD 0 { id := "", function := ⟨"", ""⟩ }).id = "c1" ∧
    ("c2" : String) ≠ "c1" := by
  refine ⟨by decide, by decide, by decide, by decide⟩

/-- Claim C1, amended: the output always has length n and consists of the
needs-prompt calls' results in input order followed by the auto-resolved
calls' results in input order; hence the i-th `tool_call_id` equals
`ci.id` whenever every needs-prompt call precedes every auto-resolved
call in the input (in particular when either partition is empty). -/
theorem C1_executor_output_order (env : ExecEnv) (approveAll : Bool)
    (calls : List ToolCall) :
    (executeTools env approveAll calls).length = calls.length ∧
    (executeTools env approveAll calls).map (fun m => m.tool_call_id) =
      (calls.filter (fun tc => needsPromptFor env approveAll tc)).map
        (fun tc => tc.id) ++
      (calls.filter (fun tc => !needsPromptFor env approveAll tc)).map
        (fun tc => tc.id) ∧
    (∀ a b, calls = a ++ b →
      (∀ tc ∈ a, needsPromptFor env approveAll tc = true) →
      (∀ tc ∈ b, needsPromptFor env approveAll tc = false) →
      (executeTools env approveAll calls).map (fun m => m.tool_call_id) =
        calls.map (fun tc => tc.id)) := by
  have hmap : ∀ x : List ToolCall,
      (x.map (executeOne env approveAll)).map (fun m => m.tool_call_id) =
        x.map (fun tc => tc.id) := by
    intro x
    rw [List.map_map]
    exact List.map_congr_left (fun tc _ => executeOne_tool_call_id env approveAll tc)
  have hids : (executeTools env approveAll calls).map (fun m => m.tool_call_id) =
      (calls.filter (fun tc => needsPromptFor env approveAll tc)).map
        (fun tc => tc.id) ++
      (calls.filter (fun tc => !needsPromptFor env approveAll tc)).map
        (fun tc => tc.id) := by
    rw [executeTools]
    rw [List.map_append, hmap, hmap]
  refine ⟨?_, hids, ?_⟩
  · rw [executeTools, List.length_append, List.length_map, List.length_map]
    exact filter_length_split _ calls
  · intro a b hab ha hb
    rw [hids, hab]
    have hfa : (a ++ b).filter (fun tc => needsPromptFor env approveAll tc) = a := by
      rw [List.filter_append]
      rw [List.filter_eq_self.2 ha]
      rw [List.filter_eq_nil_iff.2 (by intro tc htc; simp [hb tc htc])]
      simp
    have hfb : (a ++ b).filter (fun tc => !needsPromptFor env approveAll tc) = b := by
      rw [List.filter_append]
      rw [List.filter_eq_nil_iff.2 (by intro tc htc; simp [ha tc htc])]
      rw [List.filter_eq_self.2 (by intro tc htc; simp [hb tc htc])]
      simp
    rw [hfa, hfb, List.map_append]

/-- Claim C1 witness at the concrete fixture. -/
theorem C1_executor_output_order_witness :
    (executeTools envC1 false callsC1).length = callsC1.length ∧
    (executeTools envC1 false callsC1).map (fun m => m.tool_call_id) =
      (callsC1.filter (fun tc => needsPromptFor envC1 false tc)).map
        (fun tc => tc.id) ++
      (callsC1.filter (fun tc => !needsPromptFor envC1 false tc)).map
        (fun tc => tc.id) ∧
    (∀ a b, callsC1 = a ++ b →
      (∀ tc ∈ a, needsPromptFor envC1 false tc = true) →
      (∀ tc ∈ b, needsPromptFor envC1 false tc = false) →
      (executeTools envC1 false callsC1).map (fun m => m.tool_call_id) =
        callsC1.map (fun tc => tc.id)) :=
  C1_executor_output_order envC1 false callsC1

/-- Claim C2, as stated, is false in two ways: (a) the trimmer's safety
stop can leave an over-budget window of two messages (an assistant with
tool calls plus its tool result), which is neither under budget nor a
single message; (b) `set_system_prompt` never trims, so an oversized
prompt leaves an ordinary two-user-message window over budget. -/
theorem C2_memory_invariant_cex :
    ¬ (getTokenCount String.length
          (runMemOps String.length cfgA [.add asstA, .add toolA]) ≤ cfgA.max_tokens ∨
       (runMemOps String.length cfgA [.add asstA, .add toolA]).messages.length = 1) ∧
    ¬ (getTokenCount String.length (runMemOps String.length cfgB opsB) ≤
          cfgB.max_tokens ∨
       (runMemOps String.length cfgB opsB).messages.length = 1) ∧
    isStuckWindow (runMemOps String.length cfgB opsB).messages = false := by
  refine ⟨by decide, by decide, by decide⟩

/-- Claim C2, amended: after every mutation that runs the trimmer or
empties the window (`add` of a non-system message, `add_batch`, `clear`;
`set_system_prompt` and `add` of a system message only replace the
prompt), the memory is under budget, or the window has at most one
message, or it is one assistant-with-tool-calls message followed only by
tool messages; and the window never starts with a tool message unless it
is the only one. -/
theorem C2_memory_window_invariant (tok : String → Nat) (cfg : MemoryConfig)
    (ops : List MemOp) (op : MemOp) (hop : opRunsTrim op) :
    (getTokenCount tok (runMemOps tok cfg (ops ++ [op])) ≤ cfg.max_tokens ∨
      (runMemOps tok cfg (ops ++ [op])).messages.length ≤ 1 ∨
      isStuckWindow (runMemOps tok cfg (ops ++ [op])).messages = true) ∧
    noOrphanHead (runMemOps tok cfg (ops ++ [op])).messages = true := by
  have hrun : runMemOps tok cfg (ops ++ [op]) =
      applyMemOp tok cfg (runMemOps tok cfg ops) op := by
    rw [runMemOps, runMemOps, List.foldl_append]
    rfl
  rw [hrun]
  cases op with
  | setSys c => exact False.elim hop
  | clear =>
    constructor
    · right; left
      simp [applyMemOp, memClear]
    · simp [applyMemOp, memClear, noOrphanHead]
  | add m =>
    have hns : ¬ m.role = "system" := hop
    rw [show applyMemOp tok cfg (runMemOps tok cfg ops) (.add m) =
        memAdd tok cfg (runMemOps tok cfg ops) m from rfl]
    rw [memAdd, if_neg hns]
    have h := trim_window_invariant tok cfg
      (sysTokensOf tok (runMemOps tok cfg ops).system_prompt)
      ((runMemOps tok cfg ops).messages ++ [m])
    rw [getTokenCount]
    exact h
  | addBatch ms =>
    rw [show applyMemOp tok cfg (runMemOps tok cfg ops) (.addBatch ms) =
        memAddBatch tok cfg (runMemOps tok cfg ops) ms from rfl]
    rw [memAddBatch]
    have h := trim_window_invariant tok cfg
      (sysTokensOf tok (addBatchAux (runMemOps tok cfg ops) ms).system_prompt)
      (addBatchAux (runMemOps tok cfg ops) ms).messages
    rw [getTokenCount]
    exact h

/-- Claim C2 witness at the concrete fixture. -/
theorem C2_memory_window_invariant_witness :
    (getTokenCount String.length
        (runMemOps String.length cfgA [.add asstA, .add toolA]) ≤ cfgA.max_tokens ∨
      (runMemOps String.length cfgA [.add asstA, .add toolA]).messages.length ≤ 1 ∨
      isStuckWindow
        (runMemOps String.length cfgA [.add asstA, .add toolA]).messages = true) ∧
    noOrphanHead (runMemOps String.length cfgA [.add asstA, .add toolA]).messages =
      true :=
  C2_memory_window_invariant String.length cfgA [.add asstA] (.add toolA)
    (by show toolA.role ≠ "system"; decide)

/-- Claim C3, as stated, is false: `_check_permission` consults the
session-scoped approve-all flag before the denylist, so with the flag set
a call whose canonical arguments match a denylist pattern and no
allowlist pattern is allowed. -/
theorem C3_approve_all_overrides_denylist_cex :
    envC1.security "t3" = some cfgC3 ∧ cfgC3.permission = .ask ∧
    cfgC3.allowlist.any (fun p => envC1.regexSearch p "d") = false ∧
    cfgC3.denylist.any (fun p => envC1.regexSearch p "d") = true ∧
    checkPermission envC1 true "t3" "d" = true := by
  refine ⟨by decide, by decide, by decide, by decide, by decide⟩

/-- Claim C3, amended: an `ask` tool whose arguments match a denylist
pattern and no allowlist pattern is denied when the approve-all flag is
unset; when the flag is set the call is allowed, because the flag is
consulted before both lists. -/
theorem C3_denylist_deny_without_approve_all (env : ExecEnv) (name argsStr : String)
    (cfg : ToolSecurityConfig) (hs : env.security name = some cfg)
    (hp : cfg.permission = .ask)
    (ha : cfg.allowlist.any (fun p => env.regexSearch p argsStr) = false)
    (hd : cfg.denylist.any (fun p => env.regexSearch p argsStr) = true) :
    checkPermission env false name argsStr = false ∧
    checkPermission env true name argsStr = true := by
  simp [checkPermission, hs, hp, ha, hd]

/-- Claim C3 witness at the concrete fixture. -/
theorem C3_denylist_deny_witness :
    checkPermission envC1 false "t3" "d" = false ∧
    checkPermission envC1 true "t3" "d" = true :=
  C3_denylist_deny_without_approve_all envC1 "t3" "d" cfgC3 (by decide) (by decide)
    (by decide) (by decide)

/-- Claim C4, as stated, is false: `analyze_timeout_failure` sets
`suggested_retry` from the total number of logged tool executions, so a
log holding one unsuccessful invocation still yields `suggested_retry =
true`. -/
theorem C4_retry_on_failed_invocation_cex :
    (analyzeTimeoutFailure (some logC4) "s" 1 10).suggested_retry = true ∧
    logC4.tool_executions.all (fun te => !te.success) = true := by
  refine ⟨by decide, by decide⟩

/-- Claim C4, amended: `suggested_retry` is true iff the child's log
holds at least one tool invocation, successful or not, and in that case
the suggested actions include a retry with the timeout doubled. -/
theorem C4_retry_iff_any_invocation (log : ExecutionLog) (sid : String)
    (duration timeout : Nat) :
    ((analyzeTimeoutFailure (some log) sid duration timeout).suggested_retry = true ↔
      log.tool_executions ≠ []) ∧
    (log.tool_executions ≠ [] →
      ("Retry with timeout=" ++ toString (timeout * 2) ++ "s") ∈
        (analyzeTimeoutFailure (some log) sid duration timeout).suggested_actions) := by
  constructor
  · simp [analyzeTimeoutFailure, List.length_pos]
  · intro h
    have hp : 0 < log.tool_executions.length := List.length_pos.2 h
    simp [analyzeTimeoutFailure, hp]

/-- Claim C4 witness at the concrete fixture. -/
theorem C4_retry_iff_any_invocation_witness :
    ((analyzeTimeoutFailure (some logC4w) "s" 1 10).suggested_retry = true ↔
      logC4w.tool_executions ≠ []) ∧
    (logC4w.tool_executions ≠ [] →
      ("Retry with timeout=" ++ toString (10 * 2) ++ "s") ∈
        (analyzeTimeoutFailure (some logC4w) "s" 1 10).suggested_actions) :=
  C4_retry_iff_any_invocation logC4w "s" 1 10

/-- Claim C5, as stated, is false: `_count_tokens` returns the text
content's token count alone as soon as the content is non-empty, so an
assistant message with content "hi" and one tool call (name "f",
arguments "xy") contributes 2 tokens under the length tokenizer, not
2 + 1 + 2 = 5. -/
theorem C5_token_count_cex :
    countTokens String.length msgC5 = 2 ∧
    String.length "hi" + (String.length "f" + String.length "xy") = 5 ∧
    (2 : Nat) ≠ 5 := by
  refine ⟨by decide, by decide, by decide⟩

/-- Claim C5, amended: a message with non-empty text content contributes
exactly the token count of that content; tool calls are counted only when
the content is empty. -/
theorem C5_token_count_content_only (tok : String → Nat) (m : Msg)
    (h : m.content ≠ "") : countTokens tok m = tok m.content := by
  simp [countTokens, h]

/-- Claim C5 witness at the concrete fixture. -/
theorem C5_token_count_content_only_witness :
    countTokens String.length msgC5 = String.length "hi" :=
  C5_token_count_content_only String.length msgC5 (by decide)

/-- Claim C6: every store reachable by todo actions from the empty store
has at most one item in progress and pairwise distinct ids. -/
theorem C6_todo_invariant (acts : List TodoAction) :
    (inProgressItems (runTodo acts).1).length ≤ 1 ∧
    ((runTodo acts).1.map (fun t => t.id)).Nodup :=
  runTodoAux_inv acts [] [] 0 (by simp [inProgressItems])

/-- Claim C7, as stated, is false in its error text: the code counts
every non-completed task, so the second write's error says "2 tasks are
still pending", and the string claimed by the spec ("1 tasks") does not
occur in it. -/
theorem C7_error_count_cex :
    (runTodo todoActsC7).2.1 = ["Created 2 todos", writeErrorMsg 2] ∧
    strContainsSub (writeErrorMsg 2)
      "Cannot create new todo list while 1 tasks are still pending" = false := by
  refine ⟨by decide, by decide⟩

/-- Claim C7, amended: after the successful first write, the second write
returns the error naming 2 still-pending tasks (both non-completed items
count), leaves the stored list unchanged, and observers are notified only
once, by the first call. -/
theorem C7_second_write_rejected :
    runTodo todoActsC7 = (todoListC7, ["Created 2 todos", writeErrorMsg 2], 1) ∧
    strContainsSub (writeErrorMsg 2)
      "Cannot create new todo list while 2 tasks are still pending" = true := by
  refine ⟨by decide, by decide⟩

/-- Claim C8, as stated, is false: `_build_message` returns
`list(collected.values())` without sorting, so when the delta for index 1
arrives before the delta for index 0 the finalized tool calls come out in
arrival order [1, 0], not ascending index order. -/
theorem C8_out_of_order_stream_cex :
    (collectToolCalls deltasC8 []).map (fun p => p.1) = [1, 0] ∧
    (streamedMessage [] deltasC8).tool_calls =
      some [{ id := "b", name := "g", arguments := "x" },
            { id := "a", name := "f", arguments := "y" }] ∧
    ¬ List.Sorted (· ≤ ·) [1, 0] := by
  refine ⟨by decide, by decide, by decide⟩

/-- Claim C8, amended: the finalized tool calls are the accumulator's
values in first-appearance order of their indices; when the stream's
delta indices arrive in non-decreasing order (the usual provider
behaviour) that order is strictly ascending in the index. -/
theorem C8_tool_calls_index_order (content : List String)
    (deltas : List ToolCallDelta)
    (h : List.Sorted (· ≤ ·) (deltas.map (fun d => d.index))) :
    List.Sorted (· < ·) ((collectToolCalls deltas []).map (fun p => p.1)) ∧
    (streamedMessage content deltas).tool_calls =
      (if collectToolCalls deltas [] ≠ [] then
        some ((collectToolCalls deltas []).map (fun p => p.2)) else none) := by
  refine ⟨collect_keys_sorted deltas [] (by simp) (by simp) h, rfl⟩

/-- Claim C8 witness at the concrete fixture. -/
theorem C8_tool_calls_index_order_witness :
    List.Sorted (· < ·) ((collectToolCalls deltasC8w []).map (fun p => p.1)) ∧
    (streamedMessage ["hi"] deltasC8w).tool_calls =
      (if collectToolCalls deltasC8w [] ≠ [] then
        some ((collectToolCalls deltasC8w []).map (fun p => p.2)) else none) :=
  C8_tool_calls_index_order ["hi"] deltasC8w (by decide)

/-- Claim C9: the trimmer is idempotent — running `_trim` on an already
trimmed window changes nothing. -/
theorem C9_trim_idempotent (tok : String → Nat) (cfg : MemoryConfig)
    (sysTokens : Nat) (msgs : List Msg) :
    trim tok cfg sysTokens (trim tok cfg sysTokens msgs) =
      trim tok cfg sysTokens msgs := by
  have hstopped : tokenLoopStopped tok cfg.max_tokens sysTokens
      (trim tok cfg sysTokens msgs) := by
    rw [trim]
    apply stopped_removeOrphans
    apply trimFuel_stopped
    exact le_refl _
  have hclean : noOrphanHead (trim tok cfg sysTokens msgs) = true := by
    rw [trim]
    exact removeOrphans_noOrphanHead _
  have hlen : ∀ k : Nat, cfg.max_messages = some k → k ≠ 0 →
      (trim tok cfg sysTokens msgs).length ≤ k := by
    intro k hk hk0
    calc (trim tok cfg sysTokens msgs).length
        ≤ (trimByTokens tok cfg.max_tokens sysTokens
            (trimByCount cfg.max_messages msgs)).length := by
          rw [trim]
          exact removeOrphans_length_le _
      _ ≤ (trimByCount cfg.max_messages msgs).length := trimFuel_length_le _ _ _ _ _
      _ ≤ k := by
          rw [hk]
          exact trimByCount_le_k k hk0 msgs
  conv_lhs => rw [trim]
  have h1 : trimByCount cfg.max_messages (trim tok cfg sysTokens msgs) =
      trim tok cfg sysTokens msgs := by
    cases hmm : cfg.max_messages with
    | none => rfl
    | some k =>
      rw [trimByCount]
      by_cases hk0 : k = 0
      · rw [if_neg (by tauto)]
      · rw [if_neg (by
          intro hcon
          have := hlen k hmm hk0
          omega)]
  rw [h1]
  rw [trimByTokens, trimFuel_eq_self tok cfg.max_tokens sysTokens _ hstopped]
  exact removeOrphans_eq_self _ hclean

/-- Claim C10: registering under an existing name replaces the handler in
place but appends a second schema entry, so after a double registration
the name is listed once, its handler is the second one and two schema
entries bear it; unregistering then removes the handler and every schema
entry with that name. -/
theorem C10_reregistration {H : Type} (r : ToolRegistry H)
    (name d1 p1 d2 p2 : String) (m1 m2 : List AgentMode) (f g : H)
    (hn : ∀ p ∈ r.tools, p.1 ≠ name) (hs : ∀ s ∈ r.schemas, s.name ≠ name) :
    ((listTools (registerTool (registerTool r name d1 p1 m1 f) name d2 p2 m2 g)).count
        name = 1) ∧
    (getTool (registerTool (registerTool r name d1 p1 m1 f) name d2 p2 m2 g) name =
        some g) ∧
    (((registerTool (registerTool r name d1 p1 m1 f) name d2 p2 m2 g).schemas.filter
        (fun s => s.name = name)).length = 2) ∧
    (getTool (unregisterTool (registerTool (registerTool r name d1 p1 m1 f) name d2 p2
        m2 g) name) name = none) ∧
    ((unregisterTool (registerTool (registerTool r name d1 p1 m1 f) name d2 p2 m2 g)
        name).schemas.filter (fun s => s.name = name) = []) := by
  have ht1 : (registerTool r name d1 p1 m1 f).tools = r.tools ++ [(name, f)] := by
    simp [registerTool, dictInsert_of_not_mem name f r.tools hn]
  have ht2 : (registerTool (registerTool r name d1 p1 m1 f) name d2 p2 m2 g).tools =
      r.tools ++ [(name, g)] := by
    show dictInsert name g (registerTool r name d1 p1 m1 f).tools =
      r.tools ++ [(name, g)]
    rw [ht1]
    exact dictInsert_append_same name g f r.tools hn
  have hs2 : (registerTool (registerTool r name d1 p1 m1 f) name d2 p2 m2 g).schemas =
      r.schemas ++ [⟨name, d1, p1⟩, ⟨name, d2, p2⟩] := by
    simp [registerTool]
  have hc : ((registerTool (registerTool r name d1 p1 m1 f) name d2 p2 m2 g).tools.map
      (fun p => p.1)).contains name = true := by
    simp [ht2]
  have hcount : ((r.tools ++ [(name, g)]).map (fun p => p.1)).count name = 1 := by
    have h0 : (r.tools.map (fun p => p.1)).count name = 0 := by
      rw [List.count_eq_zero]
      intro hmem
      obtain ⟨p, hp, hpeq⟩ := List.mem_map.1 hmem
      exact hn p hp hpeq
    simp [List.count_append, h0]
  refine ⟨?_, ?_, ?_, ?_, ?_⟩
  · simpa [listTools, ht2] using hcount
  · rw [getTool, ht2]
    have hfind : (r.tools ++ [(name, g)]).find? (fun p => p.1 = name) =
        some (name, g) := by
      rw [List.find?_append]
      have : r.tools.find? (fun p => p.1 = name) = none := by
        rw [List.find?_eq_none]
        intro p hp
        simpa using hn p hp
      simp [this]
    simp [hfind]
  · rw [hs2]
    have hnil : r.schemas.filter (fun s => decide (s.name = name)) = [] := by
      rw [List.filter_eq_nil_iff]
      intro s hsm
      simpa using hs s hsm
    simp [List.filter_append, hnil]
  · rw [unregisterTool, if_pos hc, getTool]
    have hfind : (((registerTool (registerTool r name d1 p1 m1 f) name d2 p2 m2
        g).tools.filter (fun p => p.1 ≠ name)).find? (fun p => p.1 = name)) = none := by
      rw [List.find?_eq_none]
      intro p hp
      have h2 := (List.mem_filter.1 hp).2
      simpa using h2
    simp [hfind]
  · rw [unregisterTool, if_pos hc]
    rw [List.filter_eq_nil_iff]
    intro s hsm
    have h2 := (List.mem_filter.1 hsm).2
    simpa using h2

/-- Claim C10 witness: double registration of "t" over the empty registry
with handlers 1 and 2, then unregistration. -/
theorem C10_reregistration_witness :
    ((listTools (registerTool (registerTool ({} : ToolRegistry Nat) "t" "d1" "p1" [] 1)
        "t" "d2" "p2" [] 2)).count "t" = 1) ∧
    (getTool (registerTool (registerTool ({} : ToolRegistry Nat) "t" "d1" "p1" [] 1)
        "t" "d2" "p2" [] 2) "t" = some 2) ∧
    (((registerTool (registerTool ({} : ToolRegistry Nat) "t" "d1" "p1" [] 1) "t" "d2"
        "p2" [] 2).schemas.filter (fun s => s.name = "t")).length = 2) ∧
    (getTool (unregisterTool (registerTool (registerTool ({} : ToolRegistry Nat) "t"
        "d1" "p1" [] 1) "t" "d2" "p2" [] 2) "t") "t" = none) ∧
    ((unregisterTool (registerTool (registerTool ({} : ToolRegistry Nat) "t" "d1" "p1"
        [] 1) "t" "d2" "p2" [] 2) "t").schemas.filter (fun s => s.name = "t") = []) :=
  C10_reregistration {} "t" "d1" "p1" "d2" "p2" [] [] 1 2 (by simp) (by simp)

end Capybara
